import Mathlib

/-!
Verification development for the dbus-sensors NVMe subsystem core.

The definitions below are a shallow embedding of the repository's two
source files:

-  NVMeSubsys.cpp (the unnamed source file): the sensor-name deriver
   (extractOneFromTail, createSensorNameFromPath), the Basic temperature
   sentinel mapping (getTemperatureReading), the two ctemp parsers, the
   discovery scan-callback loop, the secondary-association building step
   and the generic polling state machine
   (Detail::pollCtemp / Detail::updateCtemp).
-  NVMeMi.cpp: the constructor's SetupEndpoint retry loop, the post
   primitive of the dispatch bridge, and the submission paths of
   miScanCtrl / miSubsystemHealthStatusPoll.

Machine integers are modelled as Nat / Int with explicit ranges where it
matters (int8_t readings are Int constrained to [-128, 128)); strings are
List Char so that the reverse-iterator scan of the C++ code becomes a
scan over the reversed character list; fallible paths return Option.
-/

namespace NVMeSpec

/-! ## Name deriver (NVMeSubsys.cpp, extractOneFromTail / createSensorNameFromPath)

The C++ function walks a string backwards through a reverse iterator:
it skips trailing slash characters, fails if it reaches the front, then
scans the word; it fails if the scan reaches the front of the string
without meeting a slash, and otherwise returns the word (in forward
order) leaving the iterator on the terminating slash.  We model the
remaining input as the reversed character list: the returned second
component is the not-yet-consumed reversed tail, which still carries the
terminating slash exactly as the C++ iterator does. -/

def slashB (c : Char) : Bool := c == '/'

def extractOneFromTail (rs : List Char) : Option (List Char × List Char) :=
  let rs1 := rs.dropWhile slashB
  if rs1 = [] then
    none
  else
    let word := rs1.takeWhile (fun c => !slashB c)
    let rest := rs1.dropWhile (fun c => !slashB c)
    if rest = [] then none else some (word.reverse, rest)

def boardL : List Char := ['b', 'o', 'a', 'r', 'd']

def createSensorNameFromPath (path : List Char) : Option (List Char) :=
  if path = [] then none
  else
    match extractOneFromTail path.reverse with
    | none => none
    | some (nvme, r1) =>
      match extractOneFromTail r1 with
      | none => none
      | some (prod, r2) =>
        match extractOneFromTail r2 with
        | none => none
        | some (board, _) =>
          if board = boardL then some (prod ++ '_' :: nvme) else none

/-! ## Temperature sentinel mapping (NVMeSubsys.cpp, getTemperatureReading)

The C++ function takes an int8_t and returns a double: NaN for the two
sentinel byte values static_cast to int8_t (0x80 becomes -128, 0x81
becomes -127), the reading itself otherwise.  Doubles are only ever NaN
or an exact int8 value here, so the result is modelled by an inductive
with a NaN point and an integer point. -/

inductive Value where
  | nan : Value
  | num : Int → Value
deriving DecidableEq, Repr

def getTemperatureReading (reading : Int) : Value :=
  if reading = -128 ∨ reading = -127 then Value.nan
  else Value.num reading

/-- DriveStatus for the Basic capability: only the Temp byte matters here. -/
structure DriveStatus where
  Temp : Int
deriving DecidableEq, Repr

/-- Basic-capability parser from NVMeSubsystem::start: a null status pointer
yields no value (modelled by Option.none input), otherwise the sentinel
mapping of the Temp byte. -/
def parseBasic (status : Option DriveStatus) : Option Value :=
  match status with
  | none => none
  | some st => some (getTemperatureReading st.Temp)

/-- nvme_mi_nvm_ss_health_status: the nss status byte and the composite
temperature byte are the fields the parser reads. -/
structure HealthStatus where
  nss : Nat
  ctemp : Int
deriving DecidableEq, Repr

/-- Management-capability parser from NVMeSubsystem::start: the Drive
Functional bit is mask 0x20 of nss; when clear the parse yields no value,
otherwise the sentinel mapping of ctemp. -/
def parseMi (status : HealthStatus) : Option Value :=
  let df : Bool := status.nss &&& 0x20 != 0
  if !df then none
  else some (getTemperatureReading status.ctemp)

/-! ## Polling engine (NVMeSubsystem::Detail::pollCtemp / Detail::updateCtemp)

One timer callback invocation together with the fetch completion it
triggers forms one poll cycle.  A cycle is driven by: the timer outcome
(operation-aborted, some other timer error, or a normal fire), whether
the optional ctemp Sensor is present, the answers of readingStateGood()
and sample(), and the fetch outcome (an error code, modelled none, or
data).  The cycle's observable effect is the ordered list of Sensor
facade calls it makes plus the number of times it reschedules itself via
self->pollCtemp. -/

inductive SensorOp where
  | markAvailable : Bool → SensorOp
  | markFunctional : Bool → SensorOp
  | incrementError : SensorOp
  | updateValue : Value → SensorOp
deriving DecidableEq, Repr

inductive TimerResult where
  | aborted : TimerResult
  | failed : TimerResult
  | fired : TimerResult
deriving DecidableEq, Repr

structure CycleInput (T : Type) where
  timer : TimerResult
  sensorPresent : Bool
  readingGood : Bool
  sampleOk : Bool
  fetch : Option T
deriving DecidableEq, Repr

def pollCycle {T : Type} (parse : T → Option Value) (inp : CycleInput T) :
    List SensorOp × Nat :=
  match inp.timer with
  | TimerResult.aborted => ([], 0)
  | TimerResult.failed => ([], 1)
  | TimerResult.fired =>
    if !inp.sensorPresent then ([], 1)
    else if !inp.readingGood then
      ([SensorOp.markAvailable false, SensorOp.updateValue Value.nan], 1)
    else if !inp.sampleOk then ([], 1)
    else
      match inp.fetch with
      | none => ([SensorOp.markFunctional false], 1)
      | some d =>
        match parse d with
        | none => ([SensorOp.incrementError], 1)
        | some v => ([SensorOp.updateValue v], 1)

/-- Modelled from the spec: the Sensor facade is an external collaborator
whose code is not under src/.  The spec's data model lists its
operations, and its error-handling section states that markFunctional
drives the functional flag and that the flag stays false until one
successful cycle delivers a usable value; an update carrying
not-a-number (the reading-state-bad push) does not restore it. -/
def applyOp (f : Bool) : SensorOp → Bool
  | SensorOp.markFunctional b => b
  | SensorOp.updateValue (Value.num _) => true
  | _ => f

def runFlag (f : Bool) (ops : List SensorOp) : Bool := ops.foldl applyOp f

def cycleFlag {T : Type} (parse : T → Option Value) (f : Bool) (inp : CycleInput T) : Bool :=
  runFlag f (pollCycle parse inp).1

/-- A poll cycle succeeds when the timer fired normally, the Sensor is
present, its reading state is good, it accepts the sample, the fetch
returns data and the parse yields a value. -/
def cycleSucceeds {T : Type} (parse : T → Option Value) (inp : CycleInput T) : Bool :=
  match inp.timer with
  | TimerResult.fired =>
    inp.sensorPresent && inp.readingGood && inp.sampleOk &&
      (match inp.fetch with
       | some d => (parse d).isSome
       | none => false)
  | _ => false

/-! ## Dispatch bridge and submission paths (NVMeMi.cpp)

The foreground io context and the private worker context are modelled as
explicit queues inside one state record; posting work appends to the
worker queue, completing a callback appends to the foreground queue, and
running the foreground context moves queued completions into the invoked
list.  The sequential embedding makes each C++ critical section one
atomic state transition. -/

inductive ErrCode where
  | noSuchDevice : ErrCode
  | badMessage : ErrCode
  | errnoCode : ErrCode
deriving DecidableEq, Repr

inductive CbResult where
  | ok : CbResult
  | err : ErrCode → CbResult
deriving DecidableEq, Repr

inductive WorkKind where
  | healthWork : WorkKind
  | scanWork : WorkKind
deriving DecidableEq, Repr

inductive PostOutcome where
  | posted : PostOutcome
  | stoppedError : PostOutcome
deriving DecidableEq, Repr

structure NVMeMiState where
  nvmeEP : Bool
  workerStop : Bool
  workerQueue : List WorkKind
  wakeups : Nat
  fgQueue : List CbResult
  invoked : List CbResult
deriving DecidableEq, Repr

/-- NVMeMi::post: under the worker mutex, if shutdown has been requested
the call throws the stopped runtime error without enqueueing anything;
otherwise it posts the work onto the worker context and notifies the
condition variable once.  The unsynchronized outer workerStop check of
the C++ double-checked pattern reads the same value as the inner one in
this sequential embedding, so the two collapse into one test. -/
def post (s : NVMeMiState) (w : WorkKind) : PostOutcome × NVMeMiState :=
  if s.workerStop then (PostOutcome.stoppedError, s)
  else (PostOutcome.posted,
    { s with workerQueue := s.workerQueue ++ [w], wakeups := s.wakeups + 1 })

/-- NVMeMi::miSubsystemHealthStatusPoll submission path: an absent
transport handle posts the no-such-device completion to the foreground
context and returns; otherwise the work is posted to the worker, and if
post throws the stopped error the no-such-device completion is posted to
the foreground context instead. -/
def miSubsystemHealthStatusPoll (s : NVMeMiState) : NVMeMiState :=
  if !s.nvmeEP then
    { s with fgQueue := s.fgQueue ++ [CbResult.err ErrCode.noSuchDevice] }
  else
    match post s WorkKind.healthWork with
    | (PostOutcome.posted, s1) => s1
    | (PostOutcome.stoppedError, s1) =>
      { s1 with fgQueue := s1.fgQueue ++ [CbResult.err ErrCode.noSuchDevice] }

/-- NVMeMi::miScanCtrl submission path, identical in shape to the health
status poll. -/
def miScanCtrl (s : NVMeMiState) : NVMeMiState :=
  if !s.nvmeEP then
    { s with fgQueue := s.fgQueue ++ [CbResult.err ErrCode.noSuchDevice] }
  else
    match post s WorkKind.scanWork with
    | (PostOutcome.posted, s1) => s1
    | (PostOutcome.stoppedError, s1) =>
      { s1 with fgQueue := s1.fgQueue ++ [CbResult.err ErrCode.noSuchDevice] }

/-- Running the foreground io context invokes every queued completion in
queue order. -/
def runForeground (s : NVMeMiState) : NVMeMiState :=
  { s with fgQueue := [], invoked := s.invoked ++ s.fgQueue }

/-- SetupEndpoint retry loop of the NVMeMi constructor.  The C++ loop
runs attempts i = 0, 1, 2, ...; a failing attempt with i < 5 logs a
retry warning and loops again, and a failing attempt with i = 5 rethrows
and aborts construction.  Here fuel = 5 - i counts the retries still
allowed, which makes the recursion structural; the result is the index
of the succeeding attempt (none when the final attempt failed) paired
with the number of retry warnings logged. -/
def setupRetryFuel (outcome : Nat → Bool) : Nat → Nat → Option Nat × Nat
  | i, 0 => if outcome i then (some i, 0) else (none, 0)
  | i, fuel + 1 =>
    if outcome i then (some i, 0)
    else
      let r := setupRetryFuel outcome (i + 1) fuel
      (r.1, r.2 + 1)

def setupRetry (outcome : Nat → Bool) : Option Nat × Nat :=
  setupRetryFuel outcome 0 5

structure CtorResult where
  constructed : Bool
  warnings : Nat
  threadStarted : Bool
deriving DecidableEq, Repr

/-- NVMeMi constructor: the SetupEndpoint retry loop, then opening the
MCTP endpoint (openOk = false models nvme_mi_open_mctp returning null,
which throws), then starting the worker thread.  A setup or open failure
aborts construction before the worker thread is started, so no worker
thread is left running. -/
def nvmeMiCtor (outcome : Nat → Bool) (openOk : Bool) : CtorResult :=
  match setupRetry outcome with
  | (none, w) => ⟨false, w, false⟩
  | (some _, w) => if openOk then ⟨true, w, true⟩ else ⟨false, w, false⟩

/-! ## Discovery scan callback (NVMeSubsystem::start, controller loop) -/

structure CtrlHandle where
  id : Nat
  tag : Nat
deriving DecidableEq, Repr

structure NVMeController where
  path : String
  tag : Nat
deriving DecidableEq, Repr

/-- std::map::insert semantics: when the key is already present the map
is unchanged and the returned iterator designates the existing element;
otherwise the new element is appended and returned. -/
def mapInsert (m : List (Nat × NVMeController)) (k : Nat) (v : NVMeController) :
    List (Nat × NVMeController) × NVMeController :=
  match m.lookup k with
  | some c => (m, c)
  | none => (m ++ [(k, v)], v)

/-- One iteration of the controller loop in the scan callback: read the
controller id from the handle (the raw-offset extraction of the source,
modelled as the id field of the handle), build the inventory sub-path,
insert a Controller keyed by the id, and call start() on the element the
insert iterator designates.  The second accumulator component records
each start() call in order. -/
def scanStep (subsysPath : String)
    (acc : List (Nat × NVMeController) × List NVMeController) (c : CtrlHandle) :
    List (Nat × NVMeController) × List NVMeController :=
  let p := subsysPath ++ "/controllers/" ++ toString c.id
  let r := mapInsert acc.1 c.id ⟨p, c.tag⟩
  (r.1, acc.2 ++ [r.2])

def scanCtrlCallback (subsysPath : String) (ctrlList : List CtrlHandle) :
    List (Nat × NVMeController) × List NVMeController :=
  ctrlList.foldl (scanStep subsysPath) ([], [])

/-! ## Secondary-association building (NVMeSubsystem::start, identify callback) -/

structure SecEntry where
  scid : Nat
  pcid : Nat
deriving DecidableEq, Repr

/-- The secondary accumulation loop: walk the reported entries in order,
looking each scid up in the controller map; the first miss breaks out of
the loop, keeping the prefix accumulated so far. -/
def secAccum (ctrls : List Nat) : List SecEntry → List Nat
  | [] => []
  | e :: rest => if e.scid ∈ ctrls then e.scid :: secAccum ctrls rest else []

/-- Clearing pass: every controller in the map has its association
reset; ids outside the map keep whatever state a0 recorded. -/
def clearAssoc (ctrls : List Nat) (a0 : Nat → List Nat) : Nat → List Nat :=
  fun i => if i ∈ ctrls then [] else a0 i

/-- The identify callback of NVMeSubsystem::start: on an identify error
or an undersized payload it returns before touching anything; otherwise
it clears every existing controller's association, then returns early
(associations left cleared) on an empty reported list or on a primary id
missing from the map, and otherwise assigns the accumulated secondary
prefix to the primary read from the first entry.  The Bool records
whether the step returned early. -/
def buildAssoc (ctrls : List Nat) (ec : Bool) (sizeOk : Bool)
    (entries : List SecEntry) (a0 : Nat → List Nat) : Bool × (Nat → List Nat) :=
  if ec ∨ ¬ sizeOk then (true, a0)
  else
    let a1 := clearAssoc ctrls a0
    match entries with
    | [] => (true, a1)
    | e0 :: _ =>
      if e0.pcid ∈ ctrls then
        (false, fun i => if i = e0.pcid then secAccum ctrls entries else a1 i)
      else (true, a1)

/-! ## Helper lemmas about the reverse scan -/

theorem dropWhile_append_forall (p : Char → Bool) (S t : List Char)
    (h : ∀ c ∈ S, p c = true) : (S ++ t).dropWhile p = t.dropWhile p := by
  induction S with
  | nil => rfl
  | cons a S ih =>
    have ha : p a = true := h a (List.mem_cons_self a S)
    simp only [List.cons_append, List.dropWhile_cons_of_pos ha]
    exact ih (fun c hc => h c (List.mem_cons_of_mem a hc))

theorem dropWhile_nil_of_forall (p : Char → Bool) (A : List Char)
    (h : ∀ c ∈ A, p c = true) : A.dropWhile p = [] := by
  have := dropWhile_append_forall p A [] h
  simpa using this

theorem takeWhile_append_word (p : Char → Bool) (A : List Char) (b : Char) (B : List Char)
    (hA : ∀ c ∈ A, p c = true) (hb : p b = false) :
    (A ++ b :: B).takeWhile p = A ∧ (A ++ b :: B).dropWhile p = b :: B := by
  induction A with
  | nil =>
    constructor
    · simp [List.takeWhile_cons, hb]
    · simp [List.dropWhile_cons, hb]
  | cons a A ih =>
    have ha : p a = true := hA a (List.mem_cons_self a A)
    have ih2 := ih (fun c hc => hA c (List.mem_cons_of_mem a hc))
    constructor
    · simp only [List.cons_append, List.takeWhile_cons_of_pos ha, ih2.1]
    · simp only [List.cons_append, List.dropWhile_cons_of_pos ha, ih2.2]

theorem slashB_eq_true {c : Char} (h : c = '/') : slashB c = true := by
  simp [slashB, h]

theorem slashB_eq_false {c : Char} (h : c ≠ '/') : slashB c = false := by
  simp [slashB]
  exact h

/-- Extraction through a slash-terminated word: leading slashes S are
skipped, the non-empty slash-free word A is scanned and returned in
forward order, and the remaining reversed tail keeps its leading slash,
exactly as the C++ reverse iterator is left on the terminating slash. -/
theorem extractOneFromTail_word (S A B : List Char)
    (hS : ∀ c ∈ S, c = '/') (hA0 : A ≠ []) (hA : ∀ c ∈ A, c ≠ '/') :
    extractOneFromTail (S ++ (A ++ '/' :: B)) = some (A.reverse, '/' :: B) := by
  obtain ⟨a, A', rfl⟩ := List.exists_cons_of_ne_nil hA0
  have ha : ¬ slashB a = true := by
    simp [slashB_eq_false (hA a (List.mem_cons_self a A'))]
  have h1 : (S ++ ((a :: A') ++ '/' :: B)).dropWhile slashB = (a :: A') ++ '/' :: B := by
    rw [dropWhile_append_forall slashB S _ (fun c hc => slashB_eq_true (hS c hc))]
    simp only [List.cons_append]
    exact List.dropWhile_cons_of_neg ha
  have hword := takeWhile_append_word (fun c => !slashB c) (a :: A') '/' B
    (fun c hc => by simp [slashB_eq_false (hA c hc)])
    (by simp [slashB])
  simp only [extractOneFromTail, h1]
  rw [if_neg (by simp)]
  simp only [hword.1, hword.2]
  rw [if_neg (by simp)]

/-- Extraction on a reversed tail made only of slashes fails: the skip
loop reaches the front of the string. -/
theorem extractOneFromTail_allSlash (S : List Char) (hS : ∀ c ∈ S, c = '/') :
    extractOneFromTail S = none := by
  have h1 : S.dropWhile slashB = [] :=
    dropWhile_nil_of_forall slashB S (fun c hc => slashB_eq_true (hS c hc))
  simp [extractOneFromTail, h1]

/-- Extraction fails when the word scan reaches the front of the string
without meeting a slash: the word is not slash-terminated. -/
theorem extractOneFromTail_noBound (S A : List Char)
    (hS : ∀ c ∈ S, c = '/') (hA : ∀ c ∈ A, c ≠ '/') :
    extractOneFromTail (S ++ A) = none := by
  cases A with
  | nil =>
    rw [List.append_nil]
    exact extractOneFromTail_allSlash S hS
  | cons a A' =>
    have ha : ¬ slashB a = true := by
      simp [slashB_eq_false (hA a (List.mem_cons_self a A'))]
    have h1 : (S ++ a :: A').dropWhile slashB = a :: A' := by
      rw [dropWhile_append_forall slashB S _ (fun c hc => slashB_eq_true (hS c hc))]
      exact List.dropWhile_cons_of_neg ha
    have h2 : (a :: A').dropWhile (fun c => !slashB c) = [] :=
      dropWhile_nil_of_forall _ _ (fun c hc => by simp [slashB_eq_false (hA c hc)])
    simp only [extractOneFromTail, h1]
    rw [if_neg (by simp), h2, if_pos rfl]

/-- Reversing a non-empty run of slashes exposes a leading slash. -/
theorem reverse_slashRun (S : List Char) (h0 : S ≠ []) (h : ∀ c ∈ S, c = '/') :
    ∃ t, S.reverse = '/' :: t ∧ ∀ c ∈ t, c = '/' := by
  have hne : S.reverse ≠ [] := by
    simpa using h0
  obtain ⟨a, t, ht⟩ := List.exists_cons_of_ne_nil hne
  have ha : a = '/' := by
    apply h
    rw [← List.mem_reverse, ht]
    exact List.mem_cons_self a t
  refine ⟨t, by rw [ht, ha], fun c hc => ?_⟩
  apply h
  rw [← List.mem_reverse, ht]
  exact List.mem_cons_of_mem a hc

/-- Master computation: on a path that decomposes as
prefix, slash run, anchor word X, slash run, word P, slash run, word D,
trailing slash run, the deriver succeeds with P_D exactly when the
anchor word is the literal board. -/
theorem createSensorName_segments (pre Sa X Sb P Sc D Sd : List Char)
    (hSa0 : Sa ≠ []) (hSa : ∀ c ∈ Sa, c = '/')
    (hX0 : X ≠ []) (hX : ∀ c ∈ X, c ≠ '/')
    (hSb0 : Sb ≠ []) (hSb : ∀ c ∈ Sb, c = '/')
    (hP0 : P ≠ []) (hP : ∀ c ∈ P, c ≠ '/')
    (hSc0 : Sc ≠ []) (hSc : ∀ c ∈ Sc, c = '/')
    (hD0 : D ≠ []) (hD : ∀ c ∈ D, c ≠ '/')
    (hSd : ∀ c ∈ Sd, c = '/') :
    createSensorNameFromPath (pre ++ Sa ++ X ++ Sb ++ P ++ Sc ++ D ++ Sd)
      = if X = boardL then some (P ++ '_' :: D) else none := by
  obtain ⟨ta, hta, hta2⟩ := reverse_slashRun Sa hSa0 hSa
  obtain ⟨tb, htb, htb2⟩ := reverse_slashRun Sb hSb0 hSb
  obtain ⟨tc, htc, htc2⟩ := reverse_slashRun Sc hSc0 hSc
  have hne : pre ++ Sa ++ X ++ Sb ++ P ++ Sc ++ D ++ Sd ≠ [] := by
    intro h
    have hlen := congrArg List.length h
    simp only [List.length_append, List.length_nil] at hlen
    have hXlen : 0 < X.length := List.length_pos.mpr hX0
    omega
  have hrev : (pre ++ Sa ++ X ++ Sb ++ P ++ Sc ++ D ++ Sd).reverse
      = Sd.reverse ++ (D.reverse ++ ('/' :: (tc ++ (P.reverse ++
          ('/' :: (tb ++ (X.reverse ++ ('/' :: (ta ++ pre.reverse))))))))) := by
    simp [List.reverse_append, hta, htb, htc, List.append_assoc]
  have e1 : extractOneFromTail (Sd.reverse ++ (D.reverse ++ ('/' :: (tc ++ (P.reverse ++
          ('/' :: (tb ++ (X.reverse ++ ('/' :: (ta ++ pre.reverse)))))))))) =
      some (D.reverse.reverse, '/' :: (tc ++ (P.reverse ++
          ('/' :: (tb ++ (X.reverse ++ ('/' :: (ta ++ pre.reverse)))))))) :=
    extractOneFromTail_word _ _ _
      (fun c hc => hSd c (List.mem_reverse.mp hc))
      (by simpa using hD0)
      (fun c hc => hD c (List.mem_reverse.mp hc))
  have shape2 : ('/' :: (tc ++ (P.reverse ++
          ('/' :: (tb ++ (X.reverse ++ ('/' :: (ta ++ pre.reverse))))))) : List Char)
      = ('/' :: tc) ++ (P.reverse ++
          '/' :: (tb ++ (X.reverse ++ ('/' :: (ta ++ pre.reverse))))) := by
    simp
  have e2 : extractOneFromTail ('/' :: (tc ++ (P.reverse ++
          ('/' :: (tb ++ (X.reverse ++ ('/' :: (ta ++ pre.reverse)))))))) =
      some (P.reverse.reverse, '/' :: (tb ++ (X.reverse ++ ('/' :: (ta ++ pre.reverse))))) := by
    rw [shape2]
    exact extractOneFromTail_word _ _ _
      (fun c hc => by
        rcases List.mem_cons.mp hc with h | h
        · exact h
        · exact htc2 c h)
      (by simpa using hP0)
      (fun c hc => hP c (List.mem_reverse.mp hc))
  have shape3 : ('/' :: (tb ++ (X.reverse ++ ('/' :: (ta ++ pre.reverse)))) : List Char)
      = ('/' :: tb) ++ (X.reverse ++ '/' :: (ta ++ pre.reverse)) := by
    simp
  have e3 : extractOneFromTail ('/' :: (tb ++ (X.reverse ++ ('/' :: (ta ++ pre.reverse))))) =
      some (X.reverse.reverse, '/' :: (ta ++ pre.reverse)) := by
    rw [shape3]
    exact extractOneFromTail_word _ _ _
      (fun c hc => by
        rcases List.mem_cons.mp hc with h | h
        · exact h
        · exact htb2 c h)
      (by simpa using hX0)
      (fun c hc => hX c (List.mem_reverse.mp hc))
  simp only [createSensorNameFromPath]
  rw [if_neg hne, hrev]
  simp only [e1, List.reverse_reverse, e2, e3]

/-- A path holding only two non-empty segments (with arbitrary slash runs
around them) fails: the third extraction finds no further word. -/
theorem createSensorName_twoSegs (S1 P S2 D S3 : List Char)
    (hS1 : ∀ c ∈ S1, c = '/')
    (hP0 : P ≠ []) (hP : ∀ c ∈ P, c ≠ '/')
    (hS20 : S2 ≠ []) (hS2 : ∀ c ∈ S2, c = '/')
    (hD0 : D ≠ []) (hD : ∀ c ∈ D, c ≠ '/')
    (hS3 : ∀ c ∈ S3, c = '/') :
    createSensorNameFromPath (S1 ++ P ++ S2 ++ D ++ S3) = none := by
  obtain ⟨t2, ht2, ht22⟩ := reverse_slashRun S2 hS20 hS2
  have hne : S1 ++ P ++ S2 ++ D ++ S3 ≠ [] := by
    intro h
    have hlen := congrArg List.length h
    simp only [List.length_append, List.length_nil] at hlen
    have hPlen : 0 < P.length := List.length_pos.mpr hP0
    omega
  have hrev : (S1 ++ P ++ S2 ++ D ++ S3).reverse
      = S3.reverse ++ (D.reverse ++ ('/' :: (t2 ++ (P.reverse ++ S1.reverse)))) := by
    simp [List.reverse_append, ht2, List.append_assoc]
  have e1 : extractOneFromTail (S3.reverse ++ (D.reverse ++ ('/' :: (t2 ++ (P.reverse ++ S1.reverse))))) =
      some (D.reverse.reverse, '/' :: (t2 ++ (P.reverse ++ S1.reverse))) :=
    extractOneFromTail_word _ _ _
      (fun c hc => hS3 c (List.mem_reverse.mp hc))
      (by simpa using hD0)
      (fun c hc => hD c (List.mem_reverse.mp hc))
  rcases Decidable.em (S1 = []) with hS1nil | hS1ne
  · subst hS1nil
    have shape2 : ('/' :: (t2 ++ (P.reverse ++ ([] : List Char).reverse)) : List Char)
        = ('/' :: t2) ++ P.reverse := by
      simp
    have e2 : extractOneFromTail ('/' :: (t2 ++ (P.reverse ++ ([] : List Char).reverse))) = none := by
      rw [shape2]
      exact extractOneFromTail_noBound _ _
        (fun c hc => by
          rcases List.mem_cons.mp hc with h | h
          · exact h
          · exact ht22 c h)
        (fun c hc => hP c (List.mem_reverse.mp hc))
    simp only [createSensorNameFromPath]
    rw [if_neg hne, hrev]
    simp only [e1, e2]
  · obtain ⟨t1, ht1, ht12⟩ := reverse_slashRun S1 hS1ne hS1
    have shape2 : ('/' :: (t2 ++ (P.reverse ++ S1.reverse)) : List Char)
        = ('/' :: t2) ++ (P.reverse ++ '/' :: t1) := by
      rw [ht1]
      simp
    have e2 : extractOneFromTail ('/' :: (t2 ++ (P.reverse ++ S1.reverse))) =
        some (P.reverse.reverse, '/' :: t1) := by
      rw [shape2]
      exact extractOneFromTail_word _ _ _
        (fun c hc => by
          rcases List.mem_cons.mp hc with h | h
          · exact h
          · exact ht22 c h)
        (by simpa using hP0)
        (fun c hc => hP c (List.mem_reverse.mp hc))
    have e3 : extractOneFromTail ('/' :: t1) = none :=
      extractOneFromTail_allSlash _
        (fun c hc => by
          rcases List.mem_cons.mp hc with h | h
          · exact h
          · exact ht12 c h)
    simp only [createSensorNameFromPath]
    rw [if_neg hne, hrev]
    simp only [e1, e2, e3]

/-- When the anchor word X opens the string (no slash anywhere before it),
the third extraction scans X and reaches the front of the string without
meeting a slash, so the deriver fails, whatever X is. -/
theorem createSensorName_anchorAtFront (X Sb P Sc D Sd : List Char)
    (hX0 : X ≠ []) (hX : ∀ c ∈ X, c ≠ '/')
    (hSb0 : Sb ≠ []) (hSb : ∀ c ∈ Sb, c = '/')
    (hP0 : P ≠ []) (hP : ∀ c ∈ P, c ≠ '/')
    (hSc0 : Sc ≠ []) (hSc : ∀ c ∈ Sc, c = '/')
    (hD0 : D ≠ []) (hD : ∀ c ∈ D, c ≠ '/')
    (hSd : ∀ c ∈ Sd, c = '/') :
    createSensorNameFromPath (X ++ Sb ++ P ++ Sc ++ D ++ Sd) = none := by
  obtain ⟨tb, htb, htb2⟩ := reverse_slashRun Sb hSb0 hSb
  obtain ⟨tc, htc, htc2⟩ := reverse_slashRun Sc hSc0 hSc
  have hne : X ++ Sb ++ P ++ Sc ++ D ++ Sd ≠ [] := by
    intro h
    have hlen := congrArg List.length h
    simp only [List.length_append, List.length_nil] at hlen
    have hXlen : 0 < X.length := List.length_pos.mpr hX0
    omega
  have hrev : (X ++ Sb ++ P ++ Sc ++ D ++ Sd).reverse
      = Sd.reverse ++ (D.reverse ++ ('/' :: (tc ++ (P.reverse ++
          ('/' :: (tb ++ X.reverse)))))) := by
    simp [List.reverse_append, htb, htc, List.append_assoc]
  have e1 : extractOneFromTail (Sd.reverse ++ (D.reverse ++ ('/' :: (tc ++ (P.reverse ++
          ('/' :: (tb ++ X.reverse))))))) =
      some (D.reverse.reverse, '/' :: (tc ++ (P.reverse ++ ('/' :: (tb ++ X.reverse))))) :=
    extractOneFromTail_word _ _ _
      (fun c hc => hSd c (List.mem_reverse.mp hc))
      (by simpa using hD0)
      (fun c hc => hD c (List.mem_reverse.mp hc))
  have shape2 : ('/' :: (tc ++ (P.reverse ++ ('/' :: (tb ++ X.reverse)))) : List Char)
      = ('/' :: tc) ++ (P.reverse ++ '/' :: (tb ++ X.reverse)) := by
    simp
  have e2 : extractOneFromTail ('/' :: (tc ++ (P.reverse ++ ('/' :: (tb ++ X.reverse))))) =
      some (P.reverse.reverse, '/' :: (tb ++ X.reverse)) := by
    rw [shape2]
    exact extractOneFromTail_word _ _ _
      (fun c hc => by
        rcases List.mem_cons.mp hc with h | h
        · exact h
        · exact htc2 c h)
      (by simpa using hP0)
      (fun c hc => hP c (List.mem_reverse.mp hc))
  have shape3 : ('/' :: (tb ++ X.reverse) : List Char) = ('/' :: tb) ++ X.reverse := by
    simp
  have e3 : extractOneFromTail ('/' :: (tb ++ X.reverse)) = none := by
    rw [shape3]
    exact extractOneFromTail_noBound _ _
      (fun c hc => by
        rcases List.mem_cons.mp hc with h | h
        · exact h
        · exact htb2 c h)
      (fun c hc => hX c (List.mem_reverse.mp hc))
  simp only [createSensorNameFromPath]
  rw [if_neg hne, hrev]
  simp only [e1, e2, e3]

/-- A path made only of slashes (possibly empty) holds no segment at all,
so the very first extraction fails. -/
theorem createSensorName_allSlash (S : List Char) (hS : ∀ c ∈ S, c = '/') :
    createSensorNameFromPath S = none := by
  rcases Decidable.em (S = []) with h | h
  · subst h
    rfl
  · have e1 : extractOneFromTail S.reverse = none :=
      extractOneFromTail_allSlash S.reverse (fun c hc => hS c (List.mem_reverse.mp hc))
    simp only [createSensorNameFromPath]
    rw [if_neg h]
    simp only [e1]

/-- A path holding exactly one non-empty segment (with arbitrary slash
runs around it) fails: either the first extraction already reaches the
front of the string, or the second finds only slashes. -/
theorem createSensorName_oneSeg (S1 P S2 : List Char)
    (hS1 : ∀ c ∈ S1, c = '/')
    (hP0 : P ≠ []) (hP : ∀ c ∈ P, c ≠ '/')
    (hS2 : ∀ c ∈ S2, c = '/') :
    createSensorNameFromPath (S1 ++ P ++ S2) = none := by
  have hne : S1 ++ P ++ S2 ≠ [] := by
    intro h
    have hlen := congrArg List.length h
    simp only [List.length_append, List.length_nil] at hlen
    have hPlen : 0 < P.length := List.length_pos.mpr hP0
    omega
  rcases Decidable.em (S1 = []) with hS1nil | hS1ne
  · subst hS1nil
    have hrev : (([] : List Char) ++ P ++ S2).reverse = S2.reverse ++ P.reverse := by
      simp
    have e1 : extractOneFromTail (S2.reverse ++ P.reverse) = none :=
      extractOneFromTail_noBound _ _
        (fun c hc => hS2 c (List.mem_reverse.mp hc))
        (fun c hc => hP c (List.mem_reverse.mp hc))
    simp only [createSensorNameFromPath]
    rw [if_neg hne, hrev]
    simp only [e1]
  · obtain ⟨t1, ht1, ht12⟩ := reverse_slashRun S1 hS1ne hS1
    have hrev : (S1 ++ P ++ S2).reverse = S2.reverse ++ (P.reverse ++ ('/' :: t1)) := by
      simp [List.reverse_append, ht1, List.append_assoc]
    have e1 : extractOneFromTail (S2.reverse ++ (P.reverse ++ ('/' :: t1))) =
        some (P.reverse.reverse, '/' :: t1) :=
      extractOneFromTail_word _ _ _
        (fun c hc => hS2 c (List.mem_reverse.mp hc))
        (by simpa using hP0)
        (fun c hc => hP c (List.mem_reverse.mp hc))
    have e2 : extractOneFromTail ('/' :: t1) = none :=
      extractOneFromTail_allSlash _
        (fun c hc => by
          rcases List.mem_cons.mp hc with h | h
          · exact h
          · exact ht12 c h)
    simp only [createSensorNameFromPath]
    rw [if_neg hne, hrev]
    simp only [e1, e2]

/-! ## Claim theorems about the name deriver and the sentinel mapping -/

/-- C6: the Basic-capability temperature parse maps exactly the two
sentinel byte values (0x80 no-data and 0x81 sensor-failure, which as
signed bytes are -128 and -127) to not-a-number, and every other signed
byte value passes through unchanged as a number. -/
theorem c6_sentinel_mapping :
    getTemperatureReading (-128) = Value.nan ∧
    getTemperatureReading (-127) = Value.nan ∧
    ∀ r : Int, -128 ≤ r → r < 128 → r ≠ -128 → r ≠ -127 →
      getTemperatureReading r = Value.num r := by
  refine ⟨by decide, by decide, ?_⟩
  intro r _ _ h3 h4
  simp [getTemperatureReading, h3, h4]

/-- Witness for C6 at the concrete in-range reading 25. -/
theorem c6_sentinel_mapping_witness :
    getTemperatureReading 25 = Value.num 25 :=
  c6_sentinel_mapping.2.2 25 (by decide) (by decide) (by decide) (by decide)

/-- Counterexample to C8 as stated: the path board/p/d has last three
non-empty segments board, p, d (p and d non-empty and slash-free), so the
claim predicts the result p_d, yet the deriver yields no value, because
the extraction of the board segment reaches the front of the string
without meeting a terminating slash. -/
theorem c8_counterexample :
    createSensorNameFromPath ['b', 'o', 'a', 'r', 'd', '/', 'p', '/', 'd'] = none := by
  decide

/-- C8 amended: the name deriver returns P_D for every path whose last
three non-empty segments are board, P, D (P and D non-empty and free of
slashes, trailing slashes and empty segments ignored) provided a slash
precedes the board segment; it returns no value on the empty path, on a
path whose third-from-last non-empty segment is not the literal board
(whether that segment is preceded by a slash or opens the path), and on
a path with too few segments (two, one, or no non-empty segments at
all). -/
theorem c8_name_deriver :
    (∀ pre Sa Sb P Sc D Sd : List Char,
      Sa ≠ [] → (∀ c ∈ Sa, c = '/') →
      Sb ≠ [] → (∀ c ∈ Sb, c = '/') →
      P ≠ [] → (∀ c ∈ P, c ≠ '/') →
      Sc ≠ [] → (∀ c ∈ Sc, c = '/') →
      D ≠ [] → (∀ c ∈ D, c ≠ '/') →
      (∀ c ∈ Sd, c = '/') →
      createSensorNameFromPath (pre ++ Sa ++ boardL ++ Sb ++ P ++ Sc ++ D ++ Sd)
        = some (P ++ '_' :: D)) ∧
    createSensorNameFromPath [] = none ∧
    (∀ pre Sa X Sb P Sc D Sd : List Char,
      Sa ≠ [] → (∀ c ∈ Sa, c = '/') →
      X ≠ [] → (∀ c ∈ X, c ≠ '/') → X ≠ boardL →
      Sb ≠ [] → (∀ c ∈ Sb, c = '/') →
      P ≠ [] → (∀ c ∈ P, c ≠ '/') →
      Sc ≠ [] → (∀ c ∈ Sc, c = '/') →
      D ≠ [] → (∀ c ∈ D, c ≠ '/') →
      (∀ c ∈ Sd, c = '/') →
      createSensorNameFromPath (pre ++ Sa ++ X ++ Sb ++ P ++ Sc ++ D ++ Sd) = none) ∧
    (∀ X Sb P Sc D Sd : List Char,
      X ≠ [] → (∀ c ∈ X, c ≠ '/') → X ≠ boardL →
      Sb ≠ [] → (∀ c ∈ Sb, c = '/') →
      P ≠ [] → (∀ c ∈ P, c ≠ '/') →
      Sc ≠ [] → (∀ c ∈ Sc, c = '/') →
      D ≠ [] → (∀ c ∈ D, c ≠ '/') →
      (∀ c ∈ Sd, c = '/') →
      createSensorNameFromPath (X ++ Sb ++ P ++ Sc ++ D ++ Sd) = none) ∧
    (∀ S1 P S2 D S3 : List Char,
      (∀ c ∈ S1, c = '/') →
      P ≠ [] → (∀ c ∈ P, c ≠ '/') →
      S2 ≠ [] → (∀ c ∈ S2, c = '/') →
      D ≠ [] → (∀ c ∈ D, c ≠ '/') →
      (∀ c ∈ S3, c = '/') →
      createSensorNameFromPath (S1 ++ P ++ S2 ++ D ++ S3) = none) ∧
    (∀ S1 P S2 : List Char,
      (∀ c ∈ S1, c = '/') →
      P ≠ [] → (∀ c ∈ P, c ≠ '/') →
      (∀ c ∈ S2, c = '/') →
      createSensorNameFromPath (S1 ++ P ++ S2) = none) ∧
    (∀ S : List Char, (∀ c ∈ S, c = '/') →
      createSensorNameFromPath S = none) := by
  refine ⟨?_, by decide, ?_, ?_, ?_, ?_, ?_⟩
  · intro pre Sa Sb P Sc D Sd hSa0 hSa hSb0 hSb hP0 hP hSc0 hSc hD0 hD hSd
    rw [createSensorName_segments pre Sa boardL Sb P Sc D Sd hSa0 hSa (by decide) (by decide)
      hSb0 hSb hP0 hP hSc0 hSc hD0 hD hSd]
    rw [if_pos rfl]
  · intro pre Sa X Sb P Sc D Sd hSa0 hSa hX0 hX hXb hSb0 hSb hP0 hP hSc0 hSc hD0 hD hSd
    rw [createSensorName_segments pre Sa X Sb P Sc D Sd hSa0 hSa hX0 hX
      hSb0 hSb hP0 hP hSc0 hSc hD0 hD hSd]
    rw [if_neg hXb]
  · intro X Sb P Sc D Sd hX0 hX _ hSb0 hSb hP0 hP hSc0 hSc hD0 hD hSd
    exact createSensorName_anchorAtFront X Sb P Sc D Sd hX0 hX
      hSb0 hSb hP0 hP hSc0 hSc hD0 hD hSd
  · intro S1 P S2 D S3 hS1 hP0 hP hS20 hS2 hD0 hD hS3
    exact createSensorName_twoSegs S1 P S2 D S3 hS1 hP0 hP hS20 hS2 hD0 hD hS3
  · intro S1 P S2 hS1 hP0 hP hS2
    exact createSensorName_oneSeg S1 P S2 hS1 hP0 hP hS2
  · intro S hS
    exact createSensorName_allSlash S hS

/-- Witness for C8 amended at the concrete path /x/board/p/d. -/
theorem c8_name_deriver_witness :
    createSensorNameFromPath
        (['/', 'x'] ++ ['/'] ++ boardL ++ ['/'] ++ ['p'] ++ ['/'] ++ ['d'] ++ [])
      = some (['p'] ++ '_' :: ['d']) :=
  c8_name_deriver.1 ['/', 'x'] ['/'] ['/'] ['p'] ['/'] ['d'] []
    (by decide) (by decide) (by decide) (by decide) (by decide) (by decide)
    (by decide) (by decide) (by decide) (by decide) (by decide)

/-- C10: when the board segment opens the path with no slash anywhere
before it, the deriver yields no value even though the third-from-last
non-empty segment equals board: each extraction succeeds only when the
extracted word is terminated by a slash toward the front of the string. -/
theorem c10_board_at_front (Sb P Sc D Sd : List Char)
    (hSb0 : Sb ≠ []) (hSb : ∀ c ∈ Sb, c = '/')
    (hP0 : P ≠ []) (hP : ∀ c ∈ P, c ≠ '/')
    (hSc0 : Sc ≠ []) (hSc : ∀ c ∈ Sc, c = '/')
    (hD0 : D ≠ []) (hD : ∀ c ∈ D, c ≠ '/')
    (hSd : ∀ c ∈ Sd, c = '/') :
    createSensorNameFromPath (boardL ++ Sb ++ P ++ Sc ++ D ++ Sd) = none :=
  createSensorName_anchorAtFront boardL Sb P Sc D Sd (by decide) (by decide)
    hSb0 hSb hP0 hP hSc0 hSc hD0 hD hSd

/-- Witness for C10 at the concrete path board/p/d. -/
theorem c10_board_at_front_witness :
    createSensorNameFromPath (boardL ++ ['/'] ++ ['p'] ++ ['/'] ++ ['d'] ++ []) = none :=
  c10_board_at_front ['/'] ['p'] ['/'] ['d'] []
    (by decide) (by decide) (by decide) (by decide) (by decide) (by decide)
    (by decide) (by decide) (by decide)

theorem cycleFlag_false_of_not_succeeds {T : Type} (parse : T → Option Value)
    (inp : CycleInput T) (h : cycleSucceeds parse inp = false) :
    cycleFlag parse false inp = false := by
  rcases inp with ⟨t, sp, rg, so, f⟩
  cases t <;> cases sp <;> cases rg <;> cases so <;>
    rcases f with _ | d <;>
      simp_all [cycleSucceeds, cycleFlag, pollCycle, runFlag, applyOp]

/-- C1: the polling loop never terminates on error.  For every cycle
outcome other than a timer cancellation the cycle reschedules itself
exactly once; a cancellation returns silently, touching no Sensor state
and not rescheduling; a fetch-error cycle marks the Sensor
non-functional; and starting from a fetch-error cycle, any sequence of
non-succeeding cycles leaves the functional flag false. -/
theorem c1_polling_never_terminal (T : Type) (parse : T → Option Value) :
    (∀ inp : CycleInput T, inp.timer = TimerResult.aborted →
        pollCycle parse inp = ([], 0)) ∧
    (∀ inp : CycleInput T, inp.timer ≠ TimerResult.aborted →
        (pollCycle parse inp).2 = 1) ∧
    (∀ inp : CycleInput T, inp.timer = TimerResult.fired →
        inp.sensorPresent = true → inp.readingGood = true → inp.sampleOk = true →
        inp.fetch = none →
        (pollCycle parse inp).1 = [SensorOp.markFunctional false]) ∧
    (∀ (f : Bool) (inpE : CycleInput T) (inps : List (CycleInput T)),
        inpE.timer = TimerResult.fired → inpE.sensorPresent = true →
        inpE.readingGood = true → inpE.sampleOk = true → inpE.fetch = none →
        (∀ inp ∈ inps, cycleSucceeds parse inp = false) →
        List.foldl (cycleFlag parse) (cycleFlag parse f inpE) inps = false) := by
  refine ⟨?_, ?_, ?_, ?_⟩
  · intro inp h
    simp [pollCycle, h]
  · intro inp h
    rcases inp with ⟨t, sp, rg, so, f⟩
    cases t with
    | aborted => exact absurd rfl h
    | failed => rfl
    | fired =>
      cases sp <;> cases rg <;> cases so <;> rcases f with _ | d
      all_goals first
        | rfl
        | (cases hp : parse d <;> simp [pollCycle, hp])
  · intro inp ht hsp hrg hso hf
    rcases inp with ⟨t, sp, rg, so, f⟩
    simp only at ht hsp hrg hso hf
    subst ht; subst hsp; subst hrg; subst hso; subst hf
    rfl
  · intro f inpE inps ht hsp hrg hso hf hall
    have hE : cycleFlag parse f inpE = false := by
      rcases inpE with ⟨t, sp, rg, so, fe⟩
      simp only at ht hsp hrg hso hf
      subst ht; subst hsp; subst hrg; subst hso; subst hf
      rfl
    rw [hE]
    clear hE ht hsp hrg hso hf
    induction inps with
    | nil => rfl
    | cons a l ih =>
      simp only [List.foldl_cons]
      rw [cycleFlag_false_of_not_succeeds parse a (hall a (List.mem_cons_self a l))]
      exact ih (fun i hi => hall i (List.mem_cons_of_mem a hi))

/-- Witness for C1: over the Unit reading type with a parser yielding no
value, a fetch-error cycle followed by a deferred-sample cycle and a
timer-error cycle leaves the functional flag false. -/
theorem c1_polling_never_terminal_witness :
    List.foldl (cycleFlag (fun _ : Unit => (none : Option Value)))
        (cycleFlag (fun _ : Unit => (none : Option Value)) true
          ⟨TimerResult.fired, true, true, true, none⟩)
        [⟨TimerResult.fired, true, true, false, none⟩,
         ⟨TimerResult.failed, true, true, true, some ()⟩,
         ⟨TimerResult.fired, true, true, true, some ()⟩] = false :=
  (c1_polling_never_terminal Unit (fun _ => none)).2.2.2 true
    ⟨TimerResult.fired, true, true, true, none⟩
    [⟨TimerResult.fired, true, true, false, none⟩,
     ⟨TimerResult.failed, true, true, true, some ()⟩,
     ⟨TimerResult.fired, true, true, true, some ()⟩]
    rfl rfl rfl rfl rfl (by decide)

/-- C7: the management-capability parse yields no value exactly when the
Drive Functional bit (mask 0x20 of nss) is clear and otherwise applies
the sentinel mapping to the composite temperature field; a cycle whose
fetch succeeds but whose parse yields no value increments the Sensor's
error counter exactly once, performs no value update, and reschedules
the next poll exactly once. -/
theorem c7_mi_parse_and_error_count :
    (∀ s : HealthStatus, s.nss &&& 0x20 = 0 → parseMi s = none) ∧
    (∀ s : HealthStatus, s.nss &&& 0x20 ≠ 0 →
        parseMi s = some (getTemperatureReading s.ctemp)) ∧
    (∀ (inp : CycleInput HealthStatus) (s : HealthStatus),
        inp.timer = TimerResult.fired → inp.sensorPresent = true →
        inp.readingGood = true → inp.sampleOk = true →
        inp.fetch = some s → parseMi s = none →
        pollCycle parseMi inp = ([SensorOp.incrementError], 1)) := by
  refine ⟨?_, ?_, ?_⟩
  · intro s h
    simp [parseMi, h]
  · intro s h
    simp [parseMi, h]
  · intro inp s ht hsp hrg hso hf hp
    rcases inp with ⟨t, sp, rg, so, fe⟩
    simp only at ht hsp hrg hso hf
    subst ht; subst hsp; subst hrg; subst hso; subst hf
    simp [pollCycle, hp]

/-- Witness for C7: a health status with every nss bit clear parses to
no value and the enclosing cycle increments the error counter once. -/
theorem c7_mi_parse_and_error_count_witness :
    pollCycle parseMi ⟨TimerResult.fired, true, true, true, some ⟨0, 30⟩⟩
      = ([SensorOp.incrementError], 1) :=
  c7_mi_parse_and_error_count.2.2 ⟨TimerResult.fired, true, true, true, some ⟨0, 30⟩⟩
    ⟨0, 30⟩ rfl rfl rfl rfl rfl (by decide)

theorem setupRetryFuel_all_fail (outcome : Nat → Bool) :
    ∀ fuel i, (∀ k, i ≤ k → k ≤ i + fuel → outcome k = false) →
      setupRetryFuel outcome i fuel = (none, fuel) := by
  intro fuel
  induction fuel with
  | zero =>
    intro i h
    simp [setupRetryFuel, h i le_rfl (by omega)]
  | succ fuel ih =>
    intro i h
    have hi : outcome i = false := h i le_rfl (by omega)
    have hr := ih (i + 1) (fun k hk1 hk2 => h k (by omega) (by omega))
    simp [setupRetryFuel, hi, hr]

theorem setupRetryFuel_first_success (outcome : Nat → Bool) :
    ∀ fuel i j, i ≤ j → j ≤ i + fuel → outcome j = true →
      (∀ k, i ≤ k → k < j → outcome k = false) →
      setupRetryFuel outcome i fuel = (some j, j - i) := by
  intro fuel
  induction fuel with
  | zero =>
    intro i j h1 h2 h3 _
    have hji : j = i := by omega
    subst hji
    simp [setupRetryFuel, h3]
  | succ fuel ih =>
    intro i j h1 h2 h3 h4
    by_cases hij : j = i
    · subst hij
      simp [setupRetryFuel, h3]
    · have hi : outcome i = false := h4 i le_rfl (by omega)
      have hr := ih (i + 1) j (by omega) (by omega) h3
        (fun k hk1 hk2 => h4 k (by omega) hk2)
      simp [setupRetryFuel, hi, hr]
      omega

/-- C2: post after shutdown has been requested fails with the stopped
error, enqueueing nothing and changing no state; post before shutdown
enqueues the work onto the worker context and wakes the worker exactly
once; check and enqueue are one atomic transition of the state. -/
theorem c2_post_stopped_check (s : NVMeMiState) (w : WorkKind) :
    (s.workerStop = true → post s w = (PostOutcome.stoppedError, s)) ∧
    (s.workerStop = false → post s w = (PostOutcome.posted,
      { s with workerQueue := s.workerQueue ++ [w], wakeups := s.wakeups + 1 })) := by
  constructor
  · intro h
    simp [post, h]
  · intro h
    simp [post, h]

/-- Witness for C2 at a stopped state and at a running state. -/
theorem c2_post_stopped_check_witness :
    post ⟨true, true, [], 0, [], []⟩ WorkKind.scanWork
        = (PostOutcome.stoppedError, ⟨true, true, [], 0, [], []⟩) ∧
    post ⟨true, false, [], 0, [], []⟩ WorkKind.scanWork
        = (PostOutcome.posted, ⟨true, false, [WorkKind.scanWork], 1, [], []⟩) :=
  ⟨(c2_post_stopped_check ⟨true, true, [], 0, [], []⟩ WorkKind.scanWork).1 rfl,
   (c2_post_stopped_check ⟨true, false, [], 0, [], []⟩ WorkKind.scanWork).2 rfl⟩

/-- Counterexample to C4 as stated: with the transport handle absent, at
the moment miScanCtrl returns the callback has not been completed — it
has only been posted to the foreground context, where it sits queued —
so the completion is not synchronous (the same holds for the health
status poll). -/
theorem c4_counterexample :
    (miScanCtrl ⟨false, false, [], 0, [], []⟩).invoked = [] ∧
    (miScanCtrl ⟨false, false, [], 0, [], []⟩).fgQueue
        = [CbResult.err ErrCode.noSuchDevice] ∧
    (miSubsystemHealthStatusPoll ⟨false, false, [], 0, [], []⟩).invoked = [] := by
  refine ⟨rfl, rfl, rfl⟩

/-- C4 amended: in both failure-to-submit cases — transport handle
absent, or post failing because shutdown is in progress — each operation
posts exactly one no-such-device completion to the foreground context
before returning, and the callback is invoked (not dropped) once the
foreground context runs. -/
theorem c4_callback_never_dropped (s : NVMeMiState) :
    (s.nvmeEP = false →
      miSubsystemHealthStatusPoll s
          = { s with fgQueue := s.fgQueue ++ [CbResult.err ErrCode.noSuchDevice] } ∧
      miScanCtrl s
          = { s with fgQueue := s.fgQueue ++ [CbResult.err ErrCode.noSuchDevice] }) ∧
    (s.nvmeEP = true → s.workerStop = true →
      miSubsystemHealthStatusPoll s
          = { s with fgQueue := s.fgQueue ++ [CbResult.err ErrCode.noSuchDevice] } ∧
      miScanCtrl s
          = { s with fgQueue := s.fgQueue ++ [CbResult.err ErrCode.noSuchDevice] }) ∧
    (s.nvmeEP = false ∨ s.workerStop = true →
      CbResult.err ErrCode.noSuchDevice ∈ (runForeground (miSubsystemHealthStatusPoll s)).invoked ∧
      CbResult.err ErrCode.noSuchDevice ∈ (runForeground (miScanCtrl s)).invoked) := by
  refine ⟨?_, ?_, ?_⟩
  · intro h
    constructor
    · simp [miSubsystemHealthStatusPoll, h]
    · simp [miScanCtrl, h]
  · intro h hs
    constructor
    · simp [miSubsystemHealthStatusPoll, h, post, hs]
    · simp [miScanCtrl, h, post, hs]
  · intro h
    rcases h with h | h
    · constructor
      · simp [runForeground, miSubsystemHealthStatusPoll, h]
      · simp [runForeground, miScanCtrl, h]
    · rcases he : s.nvmeEP with _ | _
      · constructor
        · simp [runForeground, miSubsystemHealthStatusPoll, he]
        · simp [runForeground, miScanCtrl, he]
      · constructor
        · simp [runForeground, miSubsystemHealthStatusPoll, he, post, h]
        · simp [runForeground, miScanCtrl, he, post, h]

/-- Witness for C4 amended: shutdown in progress with a valid handle
still completes the callback once the foreground context runs. -/
theorem c4_callback_never_dropped_witness :
    CbResult.err ErrCode.noSuchDevice
        ∈ (runForeground (miSubsystemHealthStatusPoll ⟨true, true, [], 0, [], []⟩)).invoked ∧
    CbResult.err ErrCode.noSuchDevice
        ∈ (runForeground (miScanCtrl ⟨true, true, [], 0, [], []⟩)).invoked :=
  (c4_callback_never_dropped ⟨true, true, [], 0, [], []⟩).2.2 (Or.inr rfl)

/-- Counterexample to C3 as stated: with the SetupEndpoint call failing
on attempts 0 through 4 — five consecutive setup failures — and
succeeding on attempt 5, construction succeeds (after 5 retry warnings)
instead of failing: the loop aborts only when the sixth attempt fails. -/
theorem c3_counterexample :
    nvmeMiCtor (fun i => i == 5) true = ⟨true, 5, true⟩ := by
  decide

/-- C3 amended: construction fails, with no worker thread started, after
6 consecutive setup failures (attempts 0 through 5), the first 5 of them
each logged as a retry warning; when some attempt j among the first 6
succeeds, construction proceeds after j warnings and the worker thread
starts exactly when opening the endpoint succeeds. -/
theorem c3_setup_retry_bound (outcome : Nat → Bool) (openOk : Bool) :
    ((∀ i, i ≤ 5 → outcome i = false) →
        nvmeMiCtor outcome openOk = ⟨false, 5, false⟩) ∧
    (∀ j, j ≤ 5 → outcome j = true → (∀ i, i < j → outcome i = false) →
        setupRetry outcome = (some j, j) ∧
        nvmeMiCtor outcome openOk = ⟨openOk, j, openOk⟩) := by
  constructor
  · intro h
    have hr : setupRetry outcome = (none, 5) :=
      setupRetryFuel_all_fail outcome 5 0 (fun k _ hk2 => h k (by omega))
    simp [nvmeMiCtor, hr]
  · intro j hj hojT hlt
    have hr : setupRetry outcome = (some j, j) := by
      have := setupRetryFuel_first_success outcome 5 0 j (by omega) (by omega) hojT
        (fun k _ hk2 => hlt k hk2)
      simpa [setupRetry] using this
    refine ⟨hr, ?_⟩
    cases openOk <;> simp [nvmeMiCtor, hr]

/-- Witness for C3 amended: six consecutive failures abort construction
with 5 warnings and no worker thread; failures on the first two attempts
followed by success on the third construct after 2 warnings. -/
theorem c3_setup_retry_bound_witness :
    nvmeMiCtor (fun _ => false) true = ⟨false, 5, false⟩ ∧
    nvmeMiCtor (fun i => i == 2) true = ⟨true, 2, true⟩ := by
  constructor
  · exact (c3_setup_retry_bound (fun _ => false) true).1 (fun _ _ => rfl)
  · have h := (c3_setup_retry_bound (fun i => i == 2) true).2 2 (by decide) (by decide)
      (fun i hi => by interval_cases i <;> decide)
    exact h.2

theorem secAccum_eq_takeWhile (ctrls : List Nat) (l : List SecEntry) :
    secAccum ctrls l
      = (l.takeWhile (fun e => decide (e.scid ∈ ctrls))).map SecEntry.scid := by
  induction l with
  | nil => rfl
  | cons e rest ih =>
    by_cases h : e.scid ∈ ctrls
    · simp [secAccum, h, List.takeWhile_cons, ih]
    · simp [secAccum, h, List.takeWhile_cons]

/-- C5: after a successful identify response (no error, payload at least
the header size) with a non-empty entry list whose primary id is in the
controller map, every other controller's association is cleared, and the
primary receives the longest prefix of reported secondaries whose ids
are all in the map — when some reported scid is missing, the truncated
prefix is still assigned and the step does not fail. -/
theorem c5_partial_association (ctrls : List Nat) (entries : List SecEntry)
    (e0 : SecEntry) (rest : List SecEntry) (a0 : Nat → List Nat)
    (hent : entries = e0 :: rest) (hp : e0.pcid ∈ ctrls)
    (hmiss : ∃ e ∈ entries, e.scid ∉ ctrls) :
    (buildAssoc ctrls false true entries a0).1 = false ∧
    (∀ i ∈ ctrls, i ≠ e0.pcid → (buildAssoc ctrls false true entries a0).2 i = []) ∧
    (buildAssoc ctrls false true entries a0).2 e0.pcid
      = (entries.takeWhile (fun e => decide (e.scid ∈ ctrls))).map SecEntry.scid := by
  subst hent
  refine ⟨?_, ?_, ?_⟩
  · simp [buildAssoc, hp]
  · intro i hi hne
    simp [buildAssoc, hp, hne, clearAssoc, hi]
  · simp [buildAssoc, hp, secAccum_eq_takeWhile]

/-- Witness for C5: controllers 1, 2, 3; the identify response names
primary 1 with secondaries 2, 5, 3; the id 5 is missing, so the primary
keeps only the truncated prefix containing 2. -/
theorem c5_partial_association_witness :
    (buildAssoc [1, 2, 3] false true [⟨2, 1⟩, ⟨5, 1⟩, ⟨3, 1⟩] (fun _ => [7])).1 = false ∧
    (buildAssoc [1, 2, 3] false true [⟨2, 1⟩, ⟨5, 1⟩, ⟨3, 1⟩] (fun _ => [7])).2 2 = [] ∧
    (buildAssoc [1, 2, 3] false true [⟨2, 1⟩, ⟨5, 1⟩, ⟨3, 1⟩] (fun _ => [7])).2 1
      = ([⟨2, 1⟩, ⟨5, 1⟩, ⟨3, 1⟩].takeWhile
          (fun e => decide (e.scid ∈ [1, 2, 3]))).map SecEntry.scid := by
  have h := c5_partial_association [1, 2, 3] [⟨2, 1⟩, ⟨5, 1⟩, ⟨3, 1⟩] ⟨2, 1⟩
    [⟨5, 1⟩, ⟨3, 1⟩] (fun _ => [7]) rfl (by decide)
    ⟨⟨5, 1⟩, by decide, by decide⟩
  exact ⟨h.1, h.2.1 2 (by decide) (by decide), h.2.2⟩

/-- Counterexample to C9 as stated: two scanned handles carrying the same
derived controller-id 1 (distinguished by their tag).  Last-write-wins
would leave the second handle's Controller (tag 1) in the map, but
std::map::insert keeps the first one (tag 0). -/
theorem c9_counterexample :
    (scanCtrlCallback "/sub" [⟨1, 0⟩, ⟨1, 1⟩]).1
        = [(1, ⟨"/sub/controllers/1", 0⟩)] ∧
    (scanCtrlCallback "/sub" [⟨1, 0⟩, ⟨1, 1⟩]).1
        ≠ [(1, ⟨"/sub/controllers/1", 1⟩)] := by
  refine ⟨rfl, by decide⟩

/-- C9 amended: each scanned handle yields a Controller keyed by the
derived controller-id with inventory sub-path
subsystem-path/controllers/id, which is then started; on a duplicate id
the insertion is first-write-wins — the map is unchanged, the later
handle's Controller is discarded, and the existing Controller is started
again. -/
theorem c9_insert_first_write_wins (subsysPath : String)
    (acc : List (Nat × NVMeController) × List NVMeController) (c : CtrlHandle) :
    (acc.1.lookup c.id = none →
      scanStep subsysPath acc c
        = (acc.1 ++ [(c.id, ⟨subsysPath ++ "/controllers/" ++ toString c.id, c.tag⟩)],
           acc.2 ++ [⟨subsysPath ++ "/controllers/" ++ toString c.id, c.tag⟩])) ∧
    (∀ ex, acc.1.lookup c.id = some ex →
      scanStep subsysPath acc c = (acc.1, acc.2 ++ [ex])) := by
  constructor
  · intro h
    simp [scanStep, mapInsert, h]
  · intro ex h
    simp [scanStep, mapInsert, h]

/-- Witness for C9 amended: inserting id 1 into an empty map, then
processing a second handle with the same id. -/
theorem c9_insert_first_write_wins_witness :
    scanStep "/sub" ([], []) ⟨1, 0⟩
        = ([(1, ⟨"/sub/controllers/1", 0⟩)], [⟨"/sub/controllers/1", 0⟩]) ∧
    scanStep "/sub" ([(1, ⟨"/sub/controllers/1", 0⟩)], [⟨"/sub/controllers/1", 0⟩]) ⟨1, 1⟩
        = ([(1, ⟨"/sub/controllers/1", 0⟩)],
           [⟨"/sub/controllers/1", 0⟩, ⟨"/sub/controllers/1", 0⟩]) :=
  ⟨(c9_insert_first_write_wins "/sub" ([], []) ⟨1, 0⟩).1 rfl,
   (c9_insert_first_write_wins "/sub"
      ([(1, ⟨"/sub/controllers/1", 0⟩)], [⟨"/sub/controllers/1", 0⟩]) ⟨1, 1⟩).2
      ⟨"/sub/controllers/1", 0⟩ rfl⟩

end NVMeSpec
